import Mathlib

/-!
Shallow embedding of the bpf-experiments repository: an XDP packet
classifier that counts IPv4 packets per source/destination address in
fixed-capacity BPF hash maps and drops packets from blocked sources,
the big-endian address codec shared between kernelspace and userspace,
and the userspace control protocol (line-command front end plus a
single sequential command executor).

Machine integers are modelled as `Nat` with explicit bounds where
overflow matters (u32 values are kept below 2^32 by the operations
themselves). Fallible parsing returns `Option`.
-/

set_option maxRecDepth 4000

/-- Maximum value of a Rust `u32` (4294967295). -/
def U32_MAX : Nat := 4294967295

/-- Rust `u32::saturating_add`: clamps at `U32_MAX` instead of wrapping.
Used by the classifier as `count.saturating_add(1)`. -/
def saturatingAdd (a b : Nat) : Nat := min (a + b) U32_MAX

/-- Capacity of each BPF hash map, from
`HashMap::with_max_entries(100)` in kernelspace/src/probe/main.rs. -/
def MAX_ENTRIES : Nat := 100

/-- A BPF hash map keyed by a network-order IPv4 address (a 32-bit
value, here a `Nat`), modelled as an association list where the first
matching key wins. -/
abbrev Table (α : Type) : Type := List (Nat × α)

/-- Modelled from the spec: `get(key) -> value or absent` of the Shared
State Tables (the BPF hash map implementation lives in redbpf/the
kernel, outside this repository's sources; only its callers are in
src/). Returns the value of the first entry with the given key, or
`none` when the key is absent. -/
def tget {α : Type} : Table α → Nat → Option α
  | [], _ => none
  | (k', v) :: rest, k => if k' = k then some v else tget rest k

/-- Whether a key is present in a table. -/
def hasKey {α : Type} (t : Table α) (k : Nat) : Bool := (tget t k).isSome

/-- Modelled from the spec: `set(key, value) -> success|capacity-exceeded`
of the Shared State Tables (§4.2: "set either creates a new entry (if
capacity allows) or updates an existing one in place; capacity-exceeded
set on a new key must leave the table state otherwise unchanged").
An existing key is updated in place; a new key is inserted only while
the table holds fewer than `MAX_ENTRIES` entries, and otherwise the
call is a no-op on the table state. -/
def tset {α : Type} (t : Table α) (k : Nat) (v : α) : Table α :=
  if hasKey t k then t.map (fun p => if p.1 = k then (k, v) else p)
  else if t.length < MAX_ENTRIES then (k, v) :: t
  else t

/-- Host-visible IPv4 address (std::net::Ipv4Addr): four octets, the
first octet being the most significant byte of the big-endian u32. -/
structure Ipv4Addr where
  o0 : Nat
  o1 : Nat
  o2 : Nat
  o3 : Nat
deriving DecidableEq, Repr

/-- Rust `u32::swap_bytes` restricted to 32-bit inputs: reverses the
four bytes of the value. -/
def swapBytes32 (v : Nat) : Nat :=
  v % 256 * 16777216 + v / 256 % 256 * 65536 + v / 65536 % 256 * 256 + v / 16777216 % 256

/-- `u32::from_be_bytes(ip.octets())`: rebuild the big-endian u32 from
the four octets of a host address. -/
def u32FromBeBytes (ip : Ipv4Addr) : Nat :=
  ip.o0 * 16777216 + ip.o1 * 65536 + ip.o2 * 256 + ip.o3

/-- `Ipv4Addr::from(u32)`: the most significant byte becomes the first
octet. -/
def u32ToBeBytes (v : Nat) : Ipv4Addr :=
  ⟨v / 16777216 % 256, v / 65536 % 256, v / 256 % 256, v % 256⟩

namespace BeIpv4Addr

/-- `BeIpv4Addr::to_ip` (kernelspace/src/probe/mod.rs): a network-order
u32 is byte-swapped and converted into `std::net::Ipv4Addr`. -/
def to_ip (be : Nat) : Ipv4Addr := u32ToBeBytes (swapBytes32 be)

/-- `From<Ipv4Addr> for BeIpv4Addr` (kernelspace/src/probe/mod.rs):
`u32::from_be_bytes(ip.octets()).swap_bytes()`. -/
def ofIp (ip : Ipv4Addr) : Nat := swapBytes32 (u32FromBeBytes ip)

end BeIpv4Addr

/-- The three shared maps declared in kernelspace/src/probe/main.rs:
`SRC_PACKETS`, `DST_PACKETS` (per-address u32 packet counts) and
`SRC_BLOCK` (per-address block flag). -/
structure MapsState where
  srcPackets : Table Nat
  dstPackets : Table Nat
  srcBlock : Table Bool
deriving DecidableEq, Repr

/-- The state with all three tables empty. -/
def mapsEmpty : MapsState := ⟨[], [], []⟩

/-- XDP verdicts used by the probe. -/
inductive XdpAction where
  | Pass
  | Aborted
deriving DecidableEq, Repr

/-- The XDP probe `process` (kernelspace/src/probe/main.rs). Its input
is the result of `ctx.ip()`: `none` when no valid IPv4 header is found
(any `NetworkError`), otherwise the packet's source and destination
addresses in network byte order. On a parse failure the packet passes
untouched; otherwise both counters receive a saturating increment and
the verdict is `Aborted` exactly when `SRC_BLOCK` maps the source to
`true` (absent defaults to `false`). -/
def process (parsed : Option (Nat × Nat)) (s : MapsState) : XdpAction × MapsState :=
  match parsed with
  | none => (XdpAction.Pass, s)
  | some (src_ip, dst_ip) =>
    let count := (tget s.srcPackets src_ip).getD 0
    let srcPackets' := tset s.srcPackets src_ip (saturatingAdd count 1)
    let count2 := (tget s.dstPackets dst_ip).getD 0
    let dstPackets' := tset s.dstPackets dst_ip (saturatingAdd count2 1)
    let s' : MapsState := ⟨srcPackets', dstPackets', s.srcBlock⟩
    if (tget s.srcBlock src_ip).getD false then (XdpAction.Aborted, s')
    else (XdpAction.Pass, s')

/-- The counter update performed by the probe for one address:
`get` with default 0, saturating add 1, `set` (lines 51-52 and 53-54 of
kernelspace/src/probe/main.rs). -/
def bumpCounter (t : Table Nat) (k : Nat) : Table Nat :=
  tset t k (saturatingAdd ((tget t k).getD 0) 1)

/-! ## Control protocol front end (userspace/src/control.rs) -/

/-- The set of commands that may be issued via the control socket
(`Command` in userspace/src/control.rs). -/
inductive Command where
  | ListSrcIps
  | ListDstIps
  | ListBlockSrc
  | BlockSrc (ip : Ipv4Addr)
deriving DecidableEq, Repr

/-- Rust `str::trim_end` on the command line: drop trailing whitespace
characters (likely a trailing CR/LF). -/
def trimEndChars (l : List Char) : List Char :=
  (l.reverse.dropWhile Char.isWhitespace).reverse

/-- Rust `str::splitn(2, ' ')` as used in `process_command`: the text
before the first space, and — when a space exists — everything after
it. -/
def splitFirstSpace : List Char → List Char × Option (List Char)
  | [] => ([], none)
  | c :: rest =>
    if c = ' ' then ([], some rest)
    else
      let (a, b) := splitFirstSpace rest
      (c :: a, b)

/-- Split a character list on the dot separator, keeping empty groups
(so "1..2" yields an empty middle group, as Rust's address parser
rejects). -/
def splitDots : List Char → List (List Char)
  | [] => [[]]
  | c :: rest =>
    if c = '.' then [] :: splitDots rest
    else
      match splitDots rest with
      | [] => [[c]]
      | g :: gs => (c :: g) :: gs

/-- Decimal value of a digit string. -/
def digitsVal (l : List Char) : Nat :=
  l.foldl (fun acc c => acc * 10 + (c.toNat - 48)) 0

/-- One octet of Rust's `Ipv4Addr` `FromStr` parser: one to three
decimal digits, no leading zero unless the octet is exactly "0", value
at most 255. -/
def parseOctet (l : List Char) : Option Nat :=
  if l = [] then none
  else if !(l.all Char.isDigit) then none
  else if 3 < l.length then none
  else if l.head? = some '0' ∧ l.length ≠ 1 then none
  else if 255 < digitsVal l then none
  else some (digitsVal l)

/-- Rust `"...".parse::<Ipv4Addr>()`: exactly four valid octets
separated by dots, consuming the whole string. -/
def parseIpv4 (s : String) : Option Ipv4Addr :=
  match splitDots s.data with
  | [a, b, c, d] =>
    match parseOctet a, parseOctet b, parseOctet c, parseOctet d with
    | some w, some x, some y, some z => some ⟨w, x, y, z⟩
    | _, _, _, _ => none
  | _ => none

/-- Outcome of parsing one command line in
`ControlConnection::process_command`: either a `Command` to enqueue, or
a failure carrying the one-line message written back to the client and
the error description the function returns. -/
inductive ParseReply where
  | ok (cmd : Command)
  | failure (written : String) (desc : String)
deriving DecidableEq, Repr

/-- The command-line parser of `ControlConnection::process_command`
(userspace/src/control.rs lines 104-146): trim trailing whitespace,
split at the first space into keyword and optional parameter, then
match exactly as the Rust `match` does. Note that `list-block-src`
with a parameter falls into the catch-all arm. -/
def frontEndParse (line : String) : ParseReply :=
  let trimmed := trimEndChars line.data
  let (cmdChars, params) := splitFirstSpace trimmed
  let cmd := String.mk cmdChars
  match params with
  | none =>
    if cmd = "list-src" then ParseReply.ok Command.ListSrcIps
    else if cmd = "list-dst" then ParseReply.ok Command.ListDstIps
    else if cmd = "list-block-src" then ParseReply.ok Command.ListBlockSrc
    else if cmd = "block-src" then
      ParseReply.failure "command requires parameters\n" "command requires parameters"
    else ParseReply.failure "invalid command\n" "invalid command"
  | some p =>
    if cmd = "block-src" then
      match parseIpv4 (String.mk p) with
      | some ip => ParseReply.ok (Command.BlockSrc ip)
      | none =>
        ParseReply.failure "could not parse ip: invalid IP address syntax\n" "invalid ip address"
    else if cmd = "list-src" ∨ cmd = "list-dst" then
      ParseReply.failure "unexpected parameters\n" "unexpected parameters"
    else ParseReply.failure "invalid command\n" "invalid command"

/-! ## Command executor (userspace/src/main.rs) -/

/-- Rust `bool` `Display`. -/
def boolToString : Bool → String
  | true => "true"
  | false => "false"

/-- Rust `Ipv4Addr` `Display`: dotted decimal. -/
def ipToString (ip : Ipv4Addr) : String :=
  toString ip.o0 ++ "." ++ toString ip.o1 ++ "." ++ toString ip.o2 ++ "." ++ toString ip.o3

/-- One line of a list reply: the host form of the network-order key,
a tab, the displayed value, a newline — the body of
`format!("{}{}\t{}\n", buf, be_ip.to_ip(), count)` without the
accumulator. -/
def entryLine {α : Type} (fmt : α → String) (kv : Nat × α) : String :=
  ipToString (BeIpv4Addr.to_ip kv.1) ++ "\t" ++ fmt kv.2 ++ "\n"

/-- The `iter().fold(String::new(), ...)` reply builder of the three
list commands in userspace/src/main.rs: fold over the table's entries
in iteration order, appending one line per entry to the accumulator. -/
def listTable {α : Type} (t : Table α) (fmt : α → String) : String :=
  t.foldl (fun buf kv => buf ++ entryLine fmt kv) ""

/-- One iteration of the executor loop in userspace/src/main.rs: run a
dequeued command against the shared maps, producing the next map state
and the reply sent on the oneshot channel. `block-src` converts the
address to its network-order key, sets it to `true` in `SRC_BLOCK`,
and replies "ok" unconditionally. -/
def execCommand (s : MapsState) : Command → MapsState × String
  | Command.ListSrcIps => (s, listTable s.srcPackets (fun n => toString n))
  | Command.ListDstIps => (s, listTable s.dstPackets (fun n => toString n))
  | Command.ListBlockSrc => (s, listTable s.srcBlock boolToString)
  | Command.BlockSrc ip =>
    ({ s with srcBlock := tset s.srcBlock (BeIpv4Addr.ofIp ip) true }, "ok\n")

/-- The executor loop consuming the FIFO request queue: requests are
dequeued and executed one at a time, in arrival order; replies are
produced in the same order. -/
def execAll (s : MapsState) : List Command → MapsState × List String
  | [] => (s, [])
  | c :: cs =>
    let (s1, r) := execCommand s c
    let (s2, rs) := execAll s1 cs
    (s2, r :: rs)

/-- Result of one control connection (`process_command`'s return
value): `ok` models `Ok(())`, `err` models `Err` with the error's
description. -/
inductive ConnOutcome where
  | ok
  | err (desc : String)
deriving DecidableEq, Repr

/-- Everything observable from one control connection: the map state
after the connection is done, the byte strings written back to the
client in order, the request enqueued to the executor (if any), and
the handler's return value. -/
structure ConnTrace where
  state : MapsState
  writes : List String
  enqueued : Option Command
  outcome : ConnOutcome
deriving DecidableEq, Repr

/-- One whole connection cycle (`ControlConnection::process_command`
together with the executor serving its single request): `none` models
`read_line` returning 0 bytes (EOF before any command line), in which
case the handler returns `Ok(())` at once; a parse failure writes the
one-line message and returns the error without enqueueing; a parsed
command is enqueued, executed, and its oneshot reply written back. -/
def handleConnection (input : Option String) (s : MapsState) : ConnTrace :=
  match input with
  | none => ⟨s, [], none, ConnOutcome.ok⟩
  | some line =>
    match frontEndParse line with
    | ParseReply.failure written desc => ⟨s, [written], none, ConnOutcome.err desc⟩
    | ParseReply.ok cmd =>
      let (s1, reply) := execCommand s cmd
      ⟨s1, [reply], some cmd, ConnOutcome.ok⟩

/-! ## Concrete states used in counterexamples -/

/-- A source-counter table filled to capacity with 100 entries whose
keys are 1..100 — the network-order forms of 100 distinct addresses —
leaving key 0 absent. -/
def fullCounters : Table Nat := (List.range MAX_ENTRIES).map (fun i => (i + 1, 1))

/-- A blocklist filled to capacity with 100 entries keyed 1..100, all
set to `true`. -/
def fullBlocklist : Table Bool := (List.range MAX_ENTRIES).map (fun i => (i + 1, true))

/-- Concatenation of a list of reply lines. -/
def concatLines : List String → String
  | [] => ""
  | a :: r => a ++ concatLines r

/-! ## Helper lemmas -/

/-- In-place update: when the key is present, mapping the replacement
function over the table makes `tget` return the new value. -/
theorem tget_map_set {α : Type} :
    ∀ (t : Table α) (k : Nat) (v : α), hasKey t k = true →
      tget (t.map (fun p => if p.1 = k then (k, v) else p)) k = some v
  | [], k, v, h => by simp [hasKey, tget] at h
  | (k', w) :: rest, k, v, h => by
    by_cases hk : k' = k
    · subst hk
      simp only [List.map_cons]
      simp [tget]
    · have h' : hasKey rest k = true := by
        simp only [hasKey, tget, if_neg hk] at h
        exact h
      simp only [List.map_cons]
      simp only [if_neg hk]
      simp only [tget, if_neg hk]
      exact tget_map_set rest k v h'

/-- `set` on a present key updates it in place. -/
theorem tget_tset_present {α : Type} (t : Table α) (k : Nat) (v : α)
    (h : hasKey t k = true) : tget (tset t k v) k = some v := by
  unfold tset
  rw [if_pos h]
  exact tget_map_set t k v h

/-- `set` on a fresh key succeeds while the table is below capacity. -/
theorem tget_tset_new {α : Type} (t : Table α) (k : Nat) (v : α)
    (h : hasKey t k = false) (hlen : t.length < MAX_ENTRIES) :
    tget (tset t k v) k = some v := by
  unfold tset
  rw [if_neg (by simp [h]), if_pos hlen]
  simp [tget]

/-- An absent key reads as `none`. -/
theorem tget_eq_none_of_not_hasKey {α : Type} (t : Table α) (k : Nat)
    (h : hasKey t k = false) : tget t k = none := by
  cases hg : tget t k with
  | none => rfl
  | some v => simp [hasKey, hg] at h

/-- The reply-building fold appends one line per entry to its
accumulator. -/
theorem foldl_append_concat {α : Type} (f : Nat × α → String) :
    ∀ (l : List (Nat × α)) (buf : String),
      l.foldl (fun b kv => b ++ f kv) buf = buf ++ concatLines (l.map f)
  | [], buf => by simp [concatLines]
  | kv :: rest, buf => by
    simp only [List.foldl, List.map, concatLines]
    rw [foldl_append_concat f rest (buf ++ f kv), String.append_assoc]

/-- `listTable` is the concatenation of one formatted line per entry,
in iteration order. -/
theorem listTable_eq_concat {α : Type} (t : Table α) (fmt : α → String) :
    listTable t fmt = concatLines (t.map (entryLine fmt)) := by
  unfold listTable
  rw [foldl_append_concat (entryLine fmt) t "", String.empty_append]

/-! ## Claim theorems -/

/-- Byte-swapping a value assembled from four bytes reverses the
bytes. -/
theorem swapBytes32_of_bytes (a b c d : Nat)
    (ha : a < 256) (hb : b < 256) (hc : c < 256) (hd : d < 256) :
    swapBytes32 (a * 16777216 + b * 65536 + c * 256 + d) =
      d * 16777216 + c * 65536 + b * 256 + a := by
  unfold swapBytes32
  omega

/-- `u32::swap_bytes` is an involution on 32-bit values. -/
theorem swapBytes32_involutive (v : Nat) (hv : v < 4294967296) :
    swapBytes32 (swapBytes32 v) = v := by
  have h0 : v % 256 < 256 := Nat.mod_lt _ (by norm_num)
  have h1 : v / 256 % 256 < 256 := Nat.mod_lt _ (by norm_num)
  have h2 : v / 65536 % 256 < 256 := Nat.mod_lt _ (by norm_num)
  have h3 : v / 16777216 % 256 < 256 := Nat.mod_lt _ (by norm_num)
  rw [show swapBytes32 v =
      v % 256 * 16777216 + v / 256 % 256 * 65536 + v / 65536 % 256 * 256 + v / 16777216 % 256
    from rfl]
  rw [swapBytes32_of_bytes (v % 256) (v / 256 % 256) (v / 65536 % 256) (v / 16777216 % 256)
    h0 h1 h2 h3]
  omega

/-- Splitting a 32-bit value into octets and reassembling them is the
identity. -/
theorem u32FromBeBytes_u32ToBeBytes (w : Nat) (hw : w < 4294967296) :
    u32FromBeBytes (u32ToBeBytes w) = w := by
  simp only [u32FromBeBytes, u32ToBeBytes]
  omega

/-- `swapBytes32` stays within 32 bits. -/
theorem swapBytes32_lt (v : Nat) : swapBytes32 v < 4294967296 := by
  unfold swapBytes32
  omega

/-- C2: the address codec is a bijection: for every 32-bit
network-order value `v`, converting it to the host-visible `Ipv4Addr`
form (`BeIpv4Addr::to_ip`) and back (`From<Ipv4Addr> for BeIpv4Addr`)
yields `v` again. Both conversions are total functions, so no value
causes a failure. -/
theorem codec_roundtrip (v : Nat) (hv : v < 4294967296) :
    BeIpv4Addr.ofIp (BeIpv4Addr.to_ip v) = v := by
  unfold BeIpv4Addr.ofIp BeIpv4Addr.to_ip
  rw [u32FromBeBytes_u32ToBeBytes (swapBytes32 v) (swapBytes32_lt v)]
  exact swapBytes32_involutive v hv

/-- Witness for C2 at the network-order form of 10.0.0.1. -/
theorem codec_roundtrip_witness :
    16777226 < 4294967296 ∧ BeIpv4Addr.ofIp (BeIpv4Addr.to_ip 16777226) = 16777226 :=
  ⟨by norm_num, codec_roundtrip 16777226 (by norm_num)⟩

/-- C3: a packet from which no valid IPv4 header can be parsed
(`ctx.ip()` returns an error) makes `process` return the Pass verdict
with all three maps exactly unchanged. -/
theorem classifier_fail_open (s : MapsState) :
    process none s = (XdpAction.Pass, s) := rfl

/-- C10: a control connection that reaches EOF before any command line
(`read_line` returns 0 bytes) makes the handler return `Ok(())` with
nothing written back, no request enqueued, and no table mutated. -/
theorem eof_no_effect (s : MapsState) :
    handleConnection none s = ⟨s, [], none, ConnOutcome.ok⟩ := rfl

/-- C9: the executor is a single sequential consumer of the FIFO
request queue: for two requests submitted in order A then B, A is
executed to completion (its table effects and its reply) before B
starts, so the final table state is that of B applied after A. -/
theorem executor_fifo (A B : Command) (s : MapsState) :
    execAll s [A, B] =
      ((execCommand (execCommand s A).1 B).1,
        [(execCommand s A).2, (execCommand (execCommand s A).1 B).2]) := by
  cases h1 : execCommand s A with
  | mk s1 r1 =>
    cases h2 : execCommand s1 B with
    | mk s2 r2 => simp [execAll, h1, h2]

/-- C8: a key never written to a counter table reads as the default 0,
and a key never written to the blocklist reads as the default `false`
(the call sites apply `unwrap_or` to the map's `get`, so callers never
see an error and cannot distinguish an absent key from one holding the
default). -/
theorem default_read (tn : Table Nat) (tb : Table Bool) (k : Nat)
    (hn : hasKey tn k = false) (hb : hasKey tb k = false) :
    (tget tn k).getD 0 = 0 ∧ (tget tb k).getD false = false := by
  rw [tget_eq_none_of_not_hasKey tn k hn, tget_eq_none_of_not_hasKey tb k hb]
  exact ⟨rfl, rfl⟩

/-- Witness for C8 on empty tables at key 5. -/
theorem default_read_witness :
    (tget ([] : Table Nat) 5).getD 0 = 0 ∧ (tget ([] : Table Bool) 5).getD false = false :=
  default_read [] [] 5 (by decide) (by decide)

/-- C6: every command line the front end fails to parse (unknown
command, missing parameter, unexpected extra parameter, unparseable
address) gets exactly one one-line error message written back, the
handler returns the error (so the connection closes), no request is
ever enqueued and no table is mutated; in particular `block-src` with
no parameter gets "command requires parameters" and `frobnicate` gets
"invalid command". -/
theorem parse_error_single_reply :
    (∀ (line written desc : String) (s : MapsState),
      frontEndParse line = ParseReply.failure written desc →
      handleConnection (some line) s = ⟨s, [written], none, ConnOutcome.err desc⟩) ∧
    frontEndParse "block-src\n" =
      ParseReply.failure "command requires parameters\n" "command requires parameters" ∧
    frontEndParse "frobnicate\n" = ParseReply.failure "invalid command\n" "invalid command" := by
  refine ⟨?_, by decide, by decide⟩
  intro line written desc s h
  simp only [handleConnection, h]

/-- Witness for C6 on the line `frobnicate`. -/
theorem parse_error_single_reply_witness :
    handleConnection (some "frobnicate\n") mapsEmpty =
      ⟨mapsEmpty, ["invalid command\n"], none, ConnOutcome.err "invalid command"⟩ :=
  parse_error_single_reply.1 "frobnicate\n" "invalid command\n" "invalid command" mapsEmpty
    (by decide)

/-- C7: each list command replies with the concatenation, over all
present entries of the corresponding table in iteration order, of one
line "address TAB value NEWLINE" per entry — the empty string for an
empty table — and after one counted packet from source 10.0.0.1,
`list-src` replies with exactly the line for that address with
count 1. -/
theorem executor_list_reply :
    (∀ s : MapsState, (execCommand s Command.ListSrcIps).2 =
      concatLines (s.srcPackets.map (entryLine (fun n => toString n)))) ∧
    (∀ s : MapsState, (execCommand s Command.ListDstIps).2 =
      concatLines (s.dstPackets.map (entryLine (fun n => toString n)))) ∧
    (∀ s : MapsState, (execCommand s Command.ListBlockSrc).2 =
      concatLines (s.srcBlock.map (entryLine boolToString))) ∧
    (execCommand mapsEmpty Command.ListSrcIps).2 = "" ∧
    (execCommand (process (some (BeIpv4Addr.ofIp ⟨10, 0, 0, 1⟩, 7)) mapsEmpty).2
        Command.ListSrcIps).2 = "10.0.0.1\t1\n" := by
  refine ⟨?_, ?_, ?_, by decide, by decide⟩ <;> (intro s; exact listTable_eq_concat _ _)

/-- C4 (amended): the counter update saturates — an entry already at
`U32_MAX` is left at `U32_MAX` (never wraps to zero), and incrementing
an absent entry (default 0) yields 1 provided the table is below its
capacity of `MAX_ENTRIES` entries. -/
theorem saturating_counter :
    (∀ (t : Table Nat) (k : Nat), tget t k = some U32_MAX →
      tget (bumpCounter t k) k = some U32_MAX) ∧
    (∀ (t : Table Nat) (k : Nat), tget t k = none → t.length < MAX_ENTRIES →
      tget (bumpCounter t k) k = some 1) := by
  constructor
  · intro t k h
    have hk : hasKey t k = true := by simp [hasKey, h]
    have hs : saturatingAdd ((tget t k).getD 0) 1 = U32_MAX := by
      rw [h]
      simp only [Option.getD_some]
      unfold saturatingAdd U32_MAX
      omega
    unfold bumpCounter
    rw [hs]
    exact tget_tset_present t k U32_MAX hk
  · intro t k h hlen
    have hk : hasKey t k = false := by simp [hasKey, h]
    have hs : saturatingAdd ((tget t k).getD 0) 1 = 1 := by
      rw [h]
      simp only [Option.getD_none]
      unfold saturatingAdd U32_MAX
      omega
    unfold bumpCounter
    rw [hs]
    exact tget_tset_new t k 1 hk hlen

/-- Witness for C4: an entry at `U32_MAX` stays at `U32_MAX`, and a
fresh key in an empty table reads 1 after the update. -/
theorem saturating_counter_witness :
    tget (bumpCounter [(3, U32_MAX)] 3) 3 = some U32_MAX ∧
    tget (bumpCounter [] 3) 3 = some 1 :=
  ⟨saturating_counter.1 [(3, U32_MAX)] 3 (by decide),
    saturating_counter.2 [] 3 (by decide) (by decide)⟩

/-- C4 counterexample: on a counter table already holding
`MAX_ENTRIES` entries, incrementing an absent key does not yield 1 —
the entry is silently not created and the key still reads as absent
(default 0). -/
theorem bump_full_table_cx :
    tget fullCounters 0 = none ∧
    List.length fullCounters = MAX_ENTRIES ∧
    tget (bumpCounter fullCounters 0) 0 = none := by decide

/-- C1 (amended): for a packet with a valid IPv4 header, the classifier
applies the saturating counter update to the source entry of
`SRC_PACKETS` and the destination entry of `DST_PACKETS`
unconditionally, before the verdict is computed; the verdict is
`Aborted` (Drop) exactly when `SRC_BLOCK` maps the source to `true`,
and `Pass` when the source is absent or mapped to `false`; the updated
source entry actually holds the incremented count whenever the entry
already exists or `SRC_PACKETS` is below capacity (on a full table a
genuinely new source is silently not counted), and likewise for the
destination. -/
theorem classifier_verdict_and_counting (src dst : Nat) (s : MapsState) :
    (process (some (src, dst)) s).2 =
      ⟨bumpCounter s.srcPackets src, bumpCounter s.dstPackets dst, s.srcBlock⟩ ∧
    ((tget s.srcBlock src).getD false = true →
      (process (some (src, dst)) s).1 = XdpAction.Aborted) ∧
    ((tget s.srcBlock src).getD false = false →
      (process (some (src, dst)) s).1 = XdpAction.Pass) ∧
    (hasKey s.srcPackets src = true ∨ s.srcPackets.length < MAX_ENTRIES →
      tget (process (some (src, dst)) s).2.srcPackets src =
        some (saturatingAdd ((tget s.srcPackets src).getD 0) 1)) ∧
    (hasKey s.dstPackets dst = true ∨ s.dstPackets.length < MAX_ENTRIES →
      tget (process (some (src, dst)) s).2.dstPackets dst =
        some (saturatingAdd ((tget s.dstPackets dst).getD 0) 1)) := by
  have hmain : process (some (src, dst)) s =
      (if (tget s.srcBlock src).getD false then XdpAction.Aborted else XdpAction.Pass,
        ⟨bumpCounter s.srcPackets src, bumpCounter s.dstPackets dst, s.srcBlock⟩) := by
    simp only [process, bumpCounter]
    split <;> rfl
  refine ⟨?_, ?_, ?_, ?_, ?_⟩
  · rw [hmain]
  · intro hb
    rw [hmain]
    simp [hb]
  · intro hb
    rw [hmain]
    simp [hb]
  · intro hcap
    rw [hmain]
    show tget (bumpCounter s.srcPackets src) src = _
    unfold bumpCounter
    rcases hcap with hk | hlen
    · exact tget_tset_present _ _ _ hk
    · by_cases hk : hasKey s.srcPackets src = true
      · exact tget_tset_present _ _ _ hk
      · exact tget_tset_new _ _ _ (by revert hk; cases hasKey s.srcPackets src <;> simp) hlen
  · intro hcap
    rw [hmain]
    show tget (bumpCounter s.dstPackets dst) dst = _
    unfold bumpCounter
    rcases hcap with hk | hlen
    · exact tget_tset_present _ _ _ hk
    · by_cases hk : hasKey s.dstPackets dst = true
      · exact tget_tset_present _ _ _ hk
      · exact tget_tset_new _ _ _ (by revert hk; cases hasKey s.dstPackets dst <;> simp) hlen

/-- Witness for C1: a blocked source is counted and the verdict is
Aborted. -/
theorem classifier_verdict_and_counting_witness :
    (process (some (5, 7)) ⟨[], [], [(5, true)]⟩).1 = XdpAction.Aborted ∧
    tget (process (some (5, 7)) ⟨[], [], [(5, true)]⟩).2.srcPackets 5 = some 1 := by
  refine ⟨(classifier_verdict_and_counting 5 7 ⟨[], [], [(5, true)]⟩).2.1 (by decide), ?_⟩
  have h := (classifier_verdict_and_counting 5 7 ⟨[], [], [(5, true)]⟩).2.2.2.1
    (Or.inr (by decide))
  have hs : saturatingAdd ((tget ([] : Table Nat) 5).getD 0) 1 = 1 := by decide
  rw [hs] at h
  exact h

/-- C1 counterexample: with `SRC_PACKETS` full at its 100-entry
capacity and a blocked source address 0 that is not among its keys,
the classifier returns the Drop verdict but does not increment the
source's `SRC_PACKETS` entry — the key still reads as absent. -/
theorem classifier_full_table_cx :
    tget ((⟨fullCounters, [], [(0, true)]⟩ : MapsState)).srcBlock 0 = some true ∧
    (process (some (0, 0)) ⟨fullCounters, [], [(0, true)]⟩).1 = XdpAction.Aborted ∧
    tget (process (some (0, 0)) ⟨fullCounters, [], [(0, true)]⟩).2.srcPackets 0 = none := by
  decide

/-- C5: when `block-src` hits the blocklist's capacity (set of a new
key on a table already holding `MAX_ENTRIES` entries), the executor
still produces exactly one reply, but that reply is the fixed success
acknowledgment "ok" even though the address was not added to the
blocklist — the failure is silently swallowed instead of surfaced. -/
theorem blocksrc_capacity_silent_ok :
    tget fullBlocklist (BeIpv4Addr.ofIp ⟨10, 0, 0, 1⟩) = none ∧
    List.length fullBlocklist = MAX_ENTRIES ∧
    execCommand ⟨[], [], fullBlocklist⟩ (Command.BlockSrc ⟨10, 0, 0, 1⟩) =
      (⟨[], [], fullBlocklist⟩, "ok\n") := by decide
